import Mathlib

/-!
Shallow embedding of the `license` repository (Go).

The repository's core is `Bootstrap` (src/base/bootstrap.go): it refreshes a
local cache of license files from a remote index.  The embedding models the
external collaborators (the remote provider, JSON decoding, template
rendering, the filesystem's failure behaviour) as an explicit environment
`Env`, the on-disk state as `FS`, and each run as a pure function of the
environment together with a drain order `π` for the outcome channel.
The listing side (`printList`, `ListLocal`, `ListRemote`) comes from the
second source file.
-/

namespace LicenseRepo

/-- Raw byte payloads (index bytes, license detail bytes). -/
abbrev Bytes := List Nat

/-- A license summary as decoded from the index (key and display name).
In the source the same `License` struct carries the summary fields. -/
structure License where
  key : String
  name : String
deriving DecidableEq

/-- Modelled from the spec: the full decoded record for one license
(superset of the summary fields plus a body used for rendering); the
concrete struct is not under src/. -/
structure LicenseDetail where
  key : String
  name : String
  body : String
deriving DecidableEq

/-- The error kinds returned by the repository's functions, mirroring the
`newErr…` constructors called in src/base/bootstrap.go and the list file. -/
inductive BootErr where
  | parsingArguments
  | badFlagSyntax (flag : String)
  | cannotLocateHomeDir
  | createTempDirFailed
  | createDirFailed (path : String)
  | fetchFailed
  | deserializeFailed (payload : Bytes)
  | writeFileFailed (path : String)
  | removePathFailed (path : String)
  | copyTreeFailed (src dst : String)
  | readFailed
deriving DecidableEq

/-- Classification of an `os.RemoveAll` error on the real cache path:
a permission error (`os.IsPermission`) or any other error. -/
inductive RemoveErr where
  | perm
  | other
deriving DecidableEq

/-- Observable filesystem/network events of one Bootstrap run, in program
order; used to state ordering facts (e.g. the temp dir is created before the
index fetch). -/
inductive Event where
  | createTempDir
  | mkDirEv (path : String)
  | fetchIndexEv
  | writeIndexEv
  | fanOutEv
  | removeRealEv
  | copyTreeEv
deriving DecidableEq

/-- The contents of the staged (and, after commit, real) data directory:
raw JSON files, template files, and the index file.  Each file is a
(path, contents) pair. -/
structure DirTree where
  rawFiles : List (String × Bytes)
  templateFiles : List (String × String)
  indexFile : Option Bytes
deriving DecidableEq

def DirTree.empty : DirTree := ⟨[], [], none⟩

/-- Outcome of parsing the command-line flags via the external
`simpleflag` library: success, a parse error, or a bad flag. -/
inductive ArgsOutcome where
  | ok
  | parseFail
  | badFlag (flag : String)
deriving DecidableEq

/-- The environment of one run: the external collaborators (remote
provider, JSON codecs, template renderer) and the failure behaviour of each
filesystem operation, all fixed for the run. -/
structure Env where
  /-- outcome of flag parsing inside `setLogLevel` -/
  argsOutcome : ArgsOutcome
  /-- whether `homedir.Dir()` succeeds -/
  homeOk : Bool
  /-- the resolved home directory -/
  home : String
  /-- whether `ioutil.TempDir` succeeds -/
  tempDirOk : Bool
  /-- the path of the created temporary directory -/
  tempRoot : String
  /-- whether `os.MkdirAll` succeeds at a given path -/
  mkdirOk : String → Bool
  /-- result of `fetchIndex()`: `none` means the provider errored -/
  fetchIndexRes : Option Bytes
  /-- result of `readIndex()` (local index file), for the list commands -/
  readIndexRes : Option Bytes
  /-- whether `ioutil.WriteFile` succeeds at a given path -/
  writeOk : String → Bool
  /-- `jsonToList`: decode index bytes into license summaries -/
  jsonToList : Bytes → Option (List License)
  /-- `l.fetchFullInfo()`: fetch full detail bytes for a key -/
  fetchFullInfo : String → Option Bytes
  /-- `jsonToLicense`: decode detail bytes -/
  jsonToLicense : Bytes → Option LicenseDetail
  /-- `textTemplateString`: render a detail into template text -/
  textTemplateString : LicenseDetail → String
  /-- error classification of `os.RemoveAll` on the real cache path
  (`none` = success or path absent) -/
  removeRealErr : Option RemoveErr
  /-- whether `shutil.CopyTree` succeeds -/
  copyTreeOk : Bool

/-- `path.Join` of two components. -/
def joinP (a b : String) : String := a ++ "/" ++ b

/-- Modelled from the spec: the directory-name constants (`DataDirectory`
etc.) are defined elsewhere in the repository; the spec fixes the layout
`data/raw`, `data/templates`, `data/index.json` under a user-scoped license
directory. -/
def DataDirectory : String := "data"

def RawDirectory : String := "raw"

def TemplatesDirectory : String := "templates"

def IndexFile : String := "index.json"

def LicenseDirectory : String := ".license"

/-- `dataPath` of the run: temp root joined with the data directory. -/
def dataPath (env : Env) : String := joinP env.tempRoot DataDirectory

/-- staging raw directory. -/
def rawPath (env : Env) : String := joinP (dataPath env) RawDirectory

/-- staging templates directory. -/
def templatesPath (env : Env) : String := joinP (dataPath env) TemplatesDirectory

/-- staging index file path. -/
def indexFilePath (env : Env) : String := joinP (dataPath env) IndexFile

/-- the real cache location under the user's home directory. -/
def realLicensePath (env : Env) : String := joinP env.home LicenseDirectory

/-- `setLogLevel` (src/base/bootstrap.go:15): parse flags, map a parse
error to `ErrParsingArguments` and a bad flag to `ErrBadFlagSyntax`; the
quiet/verbose effects touch only the logger. -/
def setLogLevel : ArgsOutcome → Option BootErr
  | .ok => none
  | .parseFail => some .parsingArguments
  | .badFlag f => some (.badFlagSyntax f)

/-- The result of one materialization task: the error it posts on the
channel (`none` = success) and the files it wrote into the staging area. -/
structure WLOut where
  result : Option BootErr
  rawWrites : List (String × Bytes)
  tmplWrites : List (String × String)
deriving DecidableEq

/-- `writeLicense` (src/base/bootstrap.go:40): fetch the full license JSON,
decode it, write the raw bytes to `rawPath/<key>.json`, render the template
and write it to `templatesPath/<key>.tmpl`; each step maps its failure to
the stated error. -/
def writeLicense (env : Env) (l : License) (rawP templatesP : String) : WLOut :=
  match env.fetchFullInfo l.key with
  | none => ⟨some .fetchFailed, [], []⟩
  | some content =>
    match env.jsonToLicense content with
    | none => ⟨some (.deserializeFailed content), [], []⟩
    | some fullLicense =>
      let rawFilePath := joinP rawP (l.key ++ ".json")
      if env.writeOk rawFilePath then
        let templateData := env.textTemplateString fullLicense
        let templateFilePath := joinP templatesP (l.key ++ ".tmpl")
        if env.writeOk templateFilePath then
          ⟨none, [(rawFilePath, content)], [(templateFilePath, templateData)]⟩
        else
          ⟨some (.writeFileFailed templateFilePath), [(rawFilePath, content)], []⟩
      else
        ⟨some (.writeFileFailed rawFilePath), [], []⟩

/-- The fan-out (src/base/bootstrap.go:137): one materialization task per
license, each on its own copy of the loop variable. -/
def fanOutResults (env : Env) (licenses : List License) (rawP templatesP : String) :
    List WLOut :=
  licenses.map (fun l => writeLicense env l rawP templatesP)

/-- The order in which the buffered channel delivers the outcomes: `π` is
the task-completion order (a permutation of the task indices). -/
def drainOrder (π : List Nat) (rs : List (Option BootErr)) : List (Option BootErr) :=
  π.filterMap (fun i => rs[i]?)

/-- The error-check loop (src/base/bootstrap.go:150): return the first
non-nil error drained from the channel, `none` if all outcomes are nil. -/
def firstError : List (Option BootErr) → Option BootErr
  | [] => none
  | none :: rest => firstError rest
  | some e :: _ => some e

/-- The staged data directory after an all-success fan-out: every task's
writes plus the index file written at src/base/bootstrap.go:119. -/
def stagedTreeOf (env : Env) (licenses : List License) (serialized : Bytes) : DirTree :=
  { rawFiles := (fanOutResults env licenses (rawPath env) (templatesPath env)).flatMap WLOut.rawWrites
    templateFiles := (fanOutResults env licenses (rawPath env) (templatesPath env)).flatMap WLOut.tmplWrites
    indexFile := some serialized }

/-- Effect of one Bootstrap run on the real cache directory: left alone,
removed, or replaced by a staged tree.  The Go code never reads the real
cache during a run; it only removes it and copies the staging root over it
in the commit step. -/
inductive CacheEff where
  | keep
  | clear
  | set (t : DirTree)
deriving DecidableEq

def CacheEff.apply : CacheEff → Option DirTree → Option DirTree
  | .keep, c => c
  | .clear, _ => none
  | .set t, _ => some t

/-- The state-free part of one run: the returned error, the effect on the
real cache, whether the temporary directory was created, and the event
trace. -/
structure RunOut where
  ret : Option BootErr
  eff : CacheEff
  tempCreated : Bool
  trace : List Event
deriving DecidableEq

/-- `Bootstrap` (src/base/bootstrap.go:72), step by step: parse flags,
locate home, create the temp dir (its removal is deferred from then on),
create `raw` and `templates`, fetch the index, write it to the staging
index file (note: that failure is reported as `CreateDirFailed`), decode
it, fan out one task per license, drain the channel in order `π`, and on
all-success commit: `RemoveAll` the real path (fatal only on a permission
error), `CopyTree` the temp root over it. -/
def bootstrapRun (env : Env) (π : List Nat) : RunOut :=
  match setLogLevel env.argsOutcome with
  | some e => ⟨some e, .keep, false, []⟩
  | none =>
    if !env.homeOk then ⟨some .cannotLocateHomeDir, .keep, false, []⟩
    else if !env.tempDirOk then ⟨some .createTempDirFailed, .keep, false, []⟩
    else
      if !env.mkdirOk (rawPath env) then
        ⟨some (.createDirFailed (rawPath env)), .keep, true,
          [.createTempDir, .mkDirEv (rawPath env)]⟩
      else if !env.mkdirOk (templatesPath env) then
        ⟨some (.createDirFailed (templatesPath env)), .keep, true,
          [.createTempDir, .mkDirEv (rawPath env), .mkDirEv (templatesPath env)]⟩
      else
        let tr := [Event.createTempDir, .mkDirEv (rawPath env),
          .mkDirEv (templatesPath env), .fetchIndexEv]
        match env.fetchIndexRes with
        | none => ⟨some .fetchFailed, .keep, true, tr⟩
        | some serialized =>
          if !env.writeOk (indexFilePath env) then
            ⟨some (.createDirFailed (indexFilePath env)), .keep, true,
              tr ++ [.writeIndexEv]⟩
          else
            match env.jsonToList serialized with
            | none => ⟨some (.deserializeFailed serialized), .keep, true,
                tr ++ [.writeIndexEv]⟩
            | some licenses =>
              let results := fanOutResults env licenses (rawPath env) (templatesPath env)
              let tr2 := tr ++ [.writeIndexEv, .fanOutEv]
              match firstError (drainOrder π (results.map WLOut.result)) with
              | some e => ⟨some e, .keep, true, tr2⟩
              | none =>
                if env.removeRealErr = some .perm then
                  ⟨some (.removePathFailed (realLicensePath env)), .keep, true,
                    tr2 ++ [.removeRealEv]⟩
                else if !env.copyTreeOk then
                  ⟨some (.copyTreeFailed env.tempRoot (realLicensePath env)),
                    (if env.removeRealErr = none then .clear else .keep), true,
                    tr2 ++ [.removeRealEv, .copyTreeEv]⟩
                else
                  ⟨none, .set (stagedTreeOf env licenses serialized), true,
                    tr2 ++ [.removeRealEv, .copyTreeEv]⟩

/-- The on-disk state outside a run: the real cache directory (if it
exists) and the staging root (if one is left behind). -/
structure FS where
  realCache : Option DirTree
  stagingExists : Bool
  staging : DirTree
deriving DecidableEq

/-- `Bootstrap` as a state transformer: apply the run's cache effect; the
deferred `os.RemoveAll(tempLicensePath)` guarantees the staging root is
gone on every exit path that created it. -/
def Bootstrap (env : Env) (π : List Nat) (fs : FS) : Option BootErr × FS :=
  let r := bootstrapRun env π
  (r.ret,
    { realCache := r.eff.apply fs.realCache
      stagingExists := if r.tempCreated then false else fs.stagingExists
      staging := if r.tempCreated then DirTree.empty else fs.staging })

/-! ### The outcome channel (`ch := make(chan error, len(licenses))`) -/

/-- A bounded FIFO queue modelling a Go buffered channel during the
producer phase (no concurrent consumer: the orchestrator only drains after
`wg.Wait()`). -/
structure Chan (α : Type) where
  cap : Nat
  buf : List α
deriving DecidableEq

/-- A send on the buffered channel: succeeds (appends) when the buffer has
room, otherwise the producer would block (`none`). -/
def Chan.send (c : Chan α) (a : α) : Option (Chan α) :=
  if c.buf.length < c.cap then some ⟨c.cap, c.buf ++ [a]⟩ else none

/-- All producers post their outcomes, in completion order; `none` when
some producer would block. -/
def sendAll : Chan α → List α → Option (Chan α)
  | c, [] => some c
  | c, x :: xs =>
    match c.send x with
    | none => none
    | some c2 => sendAll c2 xs

/-! ### Listing (second source file: `printList`, `ListLocal`, `ListRemote`) -/

/-- Lexicographic comparison of character sequences by code point (equal
to byte-wise UTF-8 order, since UTF-8 preserves code-point order). -/
def charListLe : List Char → List Char → Bool
  | [], _ => true
  | _ :: _, [] => false
  | a :: as, b :: bs =>
    if a.toNat < b.toNat then true
    else if b.toNat < a.toNat then false
    else charListLe as bs

/-- Modelled from the spec: the `ByLicenseKey` sort order is not under
src/; the spec fixes it as ascending byte-wise comparison of keys. -/
def keyLE (a b : License) : Prop := charListLe a.key.data b.key.data = true

instance : DecidableRel keyLE := fun a b =>
  inferInstanceAs (Decidable (charListLe a.key.data b.key.data = true))

/-- The strict key order (distinct sorted keys), used to show sorted
outputs with distinct keys are unique. -/
def keyLt (a b : License) : Prop := keyLE a b ∧ a.key ≠ b.key

/-- Modelled from the spec: the `indent` constant used by `printList` is
defined elsewhere in the repository. -/
def indent : String := "  "

/-- The `%-14s` conversion: left-justify in a field of width 14. -/
def pad14 (s : String) : String :=
  s ++ String.mk (List.replicate (14 - s.length) ' ')

/-- One output line of `printList`: `fmt.Printf("%s%-14s(%s)\n", indent, l.Key, l.Name)`. -/
def licLine (l : License) : String :=
  indent ++ pad14 l.key ++ "(" ++ l.name ++ ")"

/-- `printList` (list file:31): sort the slice in place via
`sort.Sort(ByLicenseKey(licenses))`, then print a header, one line per
license, and a blank line.  Returns the printed lines and the caller's
slice after the in-place sort. -/
def printList (licenses : List License) : List String × List License :=
  let sorted := List.insertionSort keyLE licenses
  ("Available licenses:\n" :: sorted.map licLine ++ [""], sorted)

/-- `getLocalList`: read the local index and decode it. -/
def getLocalList (env : Env) : Option (List License) :=
  env.readIndexRes.bind env.jsonToList

/-- `getRemoteList`: fetch the remote index and decode it. -/
def getRemoteList (env : Env) : Option (List License) :=
  env.fetchIndexRes.bind env.jsonToList

/-- `ListLocal`: any failure becomes `ReadFailed`; otherwise print.
Returns (error, printed lines, caller's slice after printing). -/
def ListLocal (env : Env) : Option BootErr × List String × List License :=
  match getLocalList env with
  | none => (some .readFailed, [], [])
  | some licenses => ((none : Option BootErr), printList licenses)

/-- `ListRemote`: any failure becomes `FetchFailed`; otherwise print. -/
def ListRemote (env : Env) : Option BootErr × List String × List License :=
  match getRemoteList env with
  | none => (some .fetchFailed, [], [])
  | some licenses => ((none : Option BootErr), printList licenses)

/-! ### Run-configuration predicates and concrete test environments -/

/-- The run gets past flag parsing, home lookup, staging creation, the
index fetch, the index write and the index decode, i.e. it reaches the
fan-out with `licenses` decoded from index bytes `b`. -/
structure ReachesFanOut (env : Env) (b : Bytes) (licenses : List License) : Prop where
  args : env.argsOutcome = .ok
  homeo : env.homeOk = true
  tempo : env.tempDirOk = true
  mkRaw : env.mkdirOk (rawPath env) = true
  mkTmpl : env.mkdirOk (templatesPath env) = true
  idx : env.fetchIndexRes = some b
  wrIdx : env.writeOk (indexFilePath env) = true
  decodeIdx : env.jsonToList b = some licenses

/-- Two licenses used by the concrete test runs. -/
def wLicenses : List License :=
  [⟨"mit", "MIT License"⟩, ⟨"apache-2.0", "Apache License 2.0"⟩]

def wIndexBytes : Bytes := [0, 1]

def wDetailBytes : Bytes := [2, 3]

def wDetail : LicenseDetail := ⟨"k", "n", "body"⟩

/-- A fully healthy environment: every external call succeeds. -/
def wEnvOk : Env :=
  { argsOutcome := .ok
    homeOk := true
    home := "/home/u"
    tempDirOk := true
    tempRoot := "/tmp/license123"
    mkdirOk := fun _ => true
    fetchIndexRes := some wIndexBytes
    readIndexRes := some wIndexBytes
    writeOk := fun _ => true
    jsonToList := fun bs => if bs = wIndexBytes then some wLicenses else none
    fetchFullInfo := fun _ => some wDetailBytes
    jsonToLicense := fun bs => if bs = wDetailBytes then some wDetail else none
    textTemplateString := fun d => d.body
    removeRealErr := none
    copyTreeOk := true }

/-- Like `wEnvOk` but the detail fetch for key `mit` fails. -/
def wEnvFail : Env :=
  { wEnvOk with
    fetchFullInfo := fun k => if k = "mit" then none else some wDetailBytes }

/-- Like `wEnvOk` but the index fetch fails. -/
def wEnvNoIndex : Env := { wEnvOk with fetchIndexRes := none }

/-- Like `wEnvOk` but writing the staged index file fails. -/
def wEnvIdxWriteFail : Env :=
  { wEnvOk with
    writeOk := fun p => !(p == "/tmp/license123/data/index.json") }

/-- Like `wEnvOk` but `os.RemoveAll` on the real cache fails with a
non-permission error. -/
def wEnvRmOther : Env := { wEnvOk with removeRealErr := some .other }

/-- Like `wEnvOk` but `os.RemoveAll` on the real cache fails with a
permission error. -/
def wEnvRmPerm : Env := { wEnvOk with removeRealErr := some .perm }

/-- A pre-existing on-disk state with a non-empty real cache and no
staging residue. -/
def wFs : FS := ⟨some ⟨[("old.json", [9])], [("old.tmpl", "x")], some [7]⟩, false, DirTree.empty⟩

/-! ### Helper lemmas -/

theorem uint32_toNat_inj {a b : UInt32} (h : a.toNat = b.toNat) : a = b := by
  cases a
  cases b
  congr 1
  exact BitVec.eq_of_toNat_eq h

theorem char_toNat_inj {a b : Char} (h : a.toNat = b.toNat) : a = b :=
  Char.eq_of_val_eq (uint32_toNat_inj h)

theorem string_eq_of_data_eq {a b : String} (h : a.data = b.data) : a = b := by
  cases a
  cases b
  simp_all

/-- The key comparison is total. -/
theorem charListLe_total : ∀ l1 l2 : List Char,
    charListLe l1 l2 = true ∨ charListLe l2 l1 = true := by
  intro l1
  induction l1 with
  | nil => intro l2; exact Or.inl rfl
  | cons a as ih =>
    intro l2
    cases l2 with
    | nil => exact Or.inr rfl
    | cons b bs =>
      rcases Nat.lt_trichotomy a.toNat b.toNat with h | h | h
      · left
        simp [charListLe, h]
      · have h1 : ¬ a.toNat < b.toNat := by omega
        have h2 : ¬ b.toNat < a.toNat := by omega
        rcases ih bs with hc | hc
        · left
          simp [charListLe, h1, h2, hc]
        · right
          simp [charListLe, h1, h2, hc]
      · right
        simp [charListLe, h]

/-- The key comparison is transitive. -/
theorem charListLe_trans : ∀ l1 l2 l3 : List Char,
    charListLe l1 l2 = true → charListLe l2 l3 = true →
    charListLe l1 l3 = true := by
  intro l1
  induction l1 with
  | nil => intro l2 l3 _ _; rfl
  | cons a as ih =>
    intro l2 l3 h1 h2
    cases l2 with
    | nil => simp [charListLe] at h1
    | cons b bs =>
      cases l3 with
      | nil => simp [charListLe] at h2
      | cons c cs =>
        by_cases hab : a.toNat < b.toNat
        · by_cases hbc : b.toNat < c.toNat
          · have hac : a.toNat < c.toNat := by omega
            simp [charListLe, hac]
          · by_cases hcb : c.toNat < b.toNat
            · simp [charListLe, hbc, hcb] at h2
            · have hac : a.toNat < c.toNat := by omega
              simp [charListLe, hac]
        · by_cases hba : b.toNat < a.toNat
          · simp [charListLe, hab, hba] at h1
          · by_cases hbc : b.toNat < c.toNat
            · have hac : a.toNat < c.toNat := by omega
              simp [charListLe, hac]
            · by_cases hcb : c.toNat < b.toNat
              · simp [charListLe, hbc, hcb] at h2
              · have hac1 : ¬ a.toNat < c.toNat := by omega
                have hac2 : ¬ c.toNat < a.toNat := by omega
                have has : charListLe as bs = true := by
                  simpa [charListLe, hab, hba] using h1
                have hbs : charListLe bs cs = true := by
                  simpa [charListLe, hbc, hcb] using h2
                simp [charListLe, hac1, hac2, ih bs cs has hbs]

/-- The key comparison is antisymmetric. -/
theorem charListLe_antisymm : ∀ l1 l2 : List Char,
    charListLe l1 l2 = true → charListLe l2 l1 = true → l1 = l2 := by
  intro l1
  induction l1 with
  | nil =>
    intro l2 h1 h2
    cases l2 with
    | nil => rfl
    | cons b bs => simp [charListLe] at h2
  | cons a as ih =>
    intro l2 h1 h2
    cases l2 with
    | nil => simp [charListLe] at h1
    | cons b bs =>
      by_cases hab : a.toNat < b.toNat
      · have hba : ¬ b.toNat < a.toNat := by omega
        simp [charListLe, hab, hba] at h2
      · by_cases hba : b.toNat < a.toNat
        · simp [charListLe, hab, hba] at h1
        · have heq : a = b := char_toNat_inj (by omega)
          subst heq
          have has : charListLe as bs = true := by
            simpa [charListLe, hab, hba] using h1
          have hbs : charListLe bs as = true := by
            simpa [charListLe, hab, hba] using h2
          rw [ih bs has hbs]

instance : IsTotal License keyLE :=
  ⟨fun a b => charListLe_total a.key.data b.key.data⟩

instance : IsTrans License keyLE :=
  ⟨fun a b c => charListLe_trans a.key.data b.key.data c.key.data⟩

instance : IsAntisymm License keyLt :=
  ⟨fun _ _ h h2 =>
    absurd (string_eq_of_data_eq (charListLe_antisymm _ _ h.1 h2.1)) h.2⟩

/-- Reading every index of a list in order reproduces the list. -/
theorem filterMap_getElem_range (l : List α) :
    (List.range l.length).filterMap (fun i => l[i]?) = l := by
  induction l with
  | nil => rfl
  | cons a l ih =>
    rw [List.length_cons, List.range_succ_eq_map, List.filterMap_cons,
      List.filterMap_map]
    simp only [List.getElem?_cons_zero, Function.comp_def, Nat.succ_eq_add_one,
      List.getElem?_cons_succ]
    rw [ih]

/-- Draining along a permutation of the task indices yields a permutation
of the task results. -/
theorem drainOrder_perm {π : List Nat} {rs : List (Option BootErr)}
    (hπ : π.Perm (List.range rs.length)) : (drainOrder π rs).Perm rs := by
  have h := hπ.filterMap (fun i => rs[i]?)
  rw [filterMap_getElem_range] at h
  exact h

/-- Every drained element is one of the task results. -/
theorem mem_of_mem_drainOrder {π : List Nat} {rs : List (Option BootErr)}
    {x : Option BootErr} (hx : x ∈ drainOrder π rs) : x ∈ rs := by
  rcases List.mem_filterMap.mp hx with ⟨i, _, hget⟩
  exact List.getElem?_mem hget

/-- The error-check loop returns `none` exactly when every drained outcome
is `none`. -/
theorem firstError_eq_none_iff (l : List (Option BootErr)) :
    firstError l = none ↔ ∀ x ∈ l, x = none := by
  induction l with
  | nil => simp [firstError]
  | cons a l ih =>
    cases a with
    | none => simpa [firstError] using ih
    | some e => simp [firstError]

/-- If some drained outcome is a failure, the loop returns a failure that
occurs among the outcomes. -/
theorem firstError_of_exists_failure {l : List (Option BootErr)}
    (h : ∃ x ∈ l, x ≠ none) : ∃ e, firstError l = some e ∧ some e ∈ l := by
  induction l with
  | nil => rcases h with ⟨x, hx, _⟩; cases hx
  | cons a l ih =>
    cases a with
    | some e => exact ⟨e, rfl, List.mem_cons_self _ _⟩
    | none =>
      rcases h with ⟨x, hx, hne⟩
      rcases List.mem_cons.mp hx with rfl | hx2
      · cases hne rfl
      · rcases ih ⟨x, hx2, hne⟩ with ⟨e, he, hmem⟩
        exact ⟨e, he, List.mem_cons_of_mem _ hmem⟩

/-- When the buffer has room for every send, all sends succeed without
blocking and the final buffer holds exactly the sent values in order. -/
theorem sendAll_ok {α : Type} (cap : Nat) :
    ∀ (xs buf : List α), buf.length + xs.length ≤ cap →
      sendAll ⟨cap, buf⟩ xs = some ⟨cap, buf ++ xs⟩ := by
  intro xs
  induction xs with
  | nil => intro buf _; simp [sendAll]
  | cons x xs ih =>
    intro buf h
    rw [List.length_cons] at h
    have hroom : buf.length < cap := by omega
    have h2 : (buf ++ [x]).length + xs.length ≤ cap := by
      simp only [List.length_append, List.length_cons, List.length_nil]
      omega
    simp only [sendAll, Chan.send, hroom, if_pos]
    rw [ih (buf ++ [x]) h2]
    simp

/-- String concatenation is left-cancellative. -/
theorem string_append_left_cancel {a b c : String} (h : a ++ b = a ++ c) :
    b = c := by
  have hd : a.data ++ b.data = a.data ++ c.data := by
    rw [← String.data_append, ← String.data_append, h]
  have := List.append_cancel_left hd
  cases b; cases c; simp_all

/-- String concatenation is right-cancellative. -/
theorem string_append_right_cancel {a b c : String} (h : a ++ c = b ++ c) :
    a = b := by
  have hd : a.data ++ c.data = b.data ++ c.data := by
    rw [← String.data_append, ← String.data_append, h]
  have := List.append_cancel_right hd
  cases a; cases b; simp_all

/-- Keys map injectively to their staged file paths. -/
theorem key_to_path_injective (dir suffix : String) :
    Function.Injective (fun k : String => joinP dir (k ++ suffix)) := by
  intro a b h
  simp only [joinP] at h
  have h2 : a ++ suffix = b ++ suffix :=
    string_append_left_cancel (a := dir ++ "/")
      (by rw [String.append_assoc, String.append_assoc] at h ⊢; exact h)
  exact string_append_right_cancel h2

/-- A successful materialization wrote exactly the raw file and the
template file for its key. -/
theorem writeLicense_success_shape (env : Env) (l : License) (rp tp : String)
    (h : (writeLicense env l rp tp).result = none) :
    ∃ c d, writeLicense env l rp tp =
      ⟨none, [(joinP rp (l.key ++ ".json"), c)],
        [(joinP tp (l.key ++ ".tmpl"), env.textTemplateString d)]⟩ := by
  cases hf : env.fetchFullInfo l.key with
  | none => simp [writeLicense, hf] at h
  | some content =>
    cases hj : env.jsonToLicense content with
    | none => simp [writeLicense, hf, hj] at h
    | some fullLicense =>
      by_cases hw1 : env.writeOk (joinP rp (l.key ++ ".json"))
      · by_cases hw2 : env.writeOk (joinP tp (l.key ++ ".tmpl"))
        · exact ⟨content, fullLicense, by simp [writeLicense, hf, hj, hw1, hw2]⟩
        · simp [writeLicense, hf, hj, hw1, hw2] at h
      · simp [writeLicense, hf, hj, hw1] at h

/-- File names of the raw file written by a successful materialization. -/
theorem writeLicense_rawWrites_fst (env : Env) (l : License) (rp tp : String)
    (h : (writeLicense env l rp tp).result = none) :
    (writeLicense env l rp tp).rawWrites.map Prod.fst = [joinP rp (l.key ++ ".json")] := by
  rcases writeLicense_success_shape env l rp tp h with ⟨c, d, heq⟩
  rw [heq]
  rfl

/-- File names of the template file written by a successful
materialization. -/
theorem writeLicense_tmplWrites_fst (env : Env) (l : License) (rp tp : String)
    (h : (writeLicense env l rp tp).result = none) :
    (writeLicense env l rp tp).tmplWrites.map Prod.fst = [joinP tp (l.key ++ ".tmpl")] := by
  rcases writeLicense_success_shape env l rp tp h with ⟨c, d, heq⟩
  rw [heq]
  rfl

/-- Concatenating the per-element writes, when each element contributes
exactly one file, yields one file per element. -/
theorem map_fst_flatMap_eq_map {α β γ : Type} (l : List α)
    (f : α → List (β × γ)) (g : α → β)
    (h : ∀ a ∈ l, (f a).map Prod.fst = [g a]) :
    ((l.flatMap f).map Prod.fst) = l.map g := by
  induction l with
  | nil => rfl
  | cons a l ih =>
    rw [List.flatMap_cons, List.map_append, List.map_cons,
      h a (List.mem_cons_self a l), ih (fun x hx => h x (List.mem_cons_of_mem a hx))]
    rfl

/-- A list sorted by key whose keys are distinct is sorted by the strict
key order. -/
theorem sorted_keyLt_of_sorted_nodup {l : List License}
    (hs : l.Sorted keyLE) (hn : (l.map License.key).Nodup) :
    l.Sorted keyLt := by
  have hne : l.Pairwise (fun a b => a.key ≠ b.key) := by
    rw [List.Nodup, List.pairwise_map] at hn
    exact hn
  have := List.Pairwise.and hs hne
  exact this.imp (fun hab => ⟨hab.1, hab.2⟩)

/-- Two sorted permutations of each other with distinct keys are equal. -/
theorem sorted_perm_nodup_eq {l1 l2 : List License} (hp : l1.Perm l2)
    (hs1 : l1.Sorted keyLE) (hs2 : l2.Sorted keyLE)
    (hn : (l1.map License.key).Nodup) : l1 = l2 := by
  have hn2 : (l2.map License.key).Nodup := ((hp.map License.key).nodup) hn
  exact List.eq_of_perm_of_sorted (r := keyLt) hp
    (sorted_keyLt_of_sorted_nodup hs1 hn)
    (sorted_keyLt_of_sorted_nodup hs2 hn2)

/-- When every materialization succeeds, the staged raw directory holds
exactly one `<key>.json` per license, in license order. -/
theorem fanOut_rawFiles_fst (env : Env) (licenses : List License) (rp tp : String)
    (hall : ∀ l ∈ licenses, (writeLicense env l rp tp).result = none) :
    ((fanOutResults env licenses rp tp).flatMap WLOut.rawWrites).map Prod.fst =
      licenses.map (fun l => joinP rp (l.key ++ ".json")) := by
  induction licenses with
  | nil => rfl
  | cons a l ih =>
    have ih2 := ih (fun x hx => hall x (List.mem_cons_of_mem a hx))
    simp only [fanOutResults] at ih2 ⊢
    simp only [List.map_cons, List.flatMap_cons, List.map_append]
    rw [writeLicense_rawWrites_fst env a rp tp (hall a (List.mem_cons_self a l)), ih2]
    rfl

/-- When every materialization succeeds, the staged templates directory
holds exactly one `<key>.tmpl` per license, in license order. -/
theorem fanOut_tmplFiles_fst (env : Env) (licenses : List License) (rp tp : String)
    (hall : ∀ l ∈ licenses, (writeLicense env l rp tp).result = none) :
    ((fanOutResults env licenses rp tp).flatMap WLOut.tmplWrites).map Prod.fst =
      licenses.map (fun l => joinP tp (l.key ++ ".tmpl")) := by
  induction licenses with
  | nil => rfl
  | cons a l ih =>
    have ih2 := ih (fun x hx => hall x (List.mem_cons_of_mem a hx))
    simp only [fanOutResults] at ih2 ⊢
    simp only [List.map_cons, List.flatMap_cons, List.map_append]
    rw [writeLicense_tmplWrites_fst env a rp tp (hall a (List.mem_cons_self a l)), ih2]
    rfl

/-- Under an all-success fan-out the error-check loop drains only nil
outcomes. -/
theorem firstError_drain_none (env : Env) (licenses : List License)
    (rp tp : String) (π : List Nat)
    (hall : ∀ r ∈ fanOutResults env licenses rp tp, r.result = none) :
    firstError (drainOrder π ((fanOutResults env licenses rp tp).map WLOut.result)) =
      none := by
  refine (firstError_eq_none_iff _).mpr (fun x hx => ?_)
  rcases List.mem_map.mp (mem_of_mem_drainOrder hx) with ⟨r, hr, rfl⟩
  exact hall r hr

/-! ### Claims -/

/-- C4: materialization (`writeLicense`) performs its four steps in order
and maps each step's failure to exactly the stated error: a provider error
on the detail fetch yields `FetchFailed`; a decode failure yields
`DeserializeFailed` carrying the fetched raw bytes; a failed write of the
raw bytes to `rawDir/<key>.json` yields `WriteFileFailed` with that path; a
failed write of the rendered template to `templatesDir/<key>.tmpl` yields
`WriteFileFailed` with that path; on success exactly these two files are
written. -/
theorem claim4 (env : Env) (l : License) (rp tp : String) :
    (env.fetchFullInfo l.key = none →
      writeLicense env l rp tp = ⟨some .fetchFailed, [], []⟩) ∧
    (∀ c, env.fetchFullInfo l.key = some c → env.jsonToLicense c = none →
      writeLicense env l rp tp = ⟨some (.deserializeFailed c), [], []⟩) ∧
    (∀ c d, env.fetchFullInfo l.key = some c → env.jsonToLicense c = some d →
      env.writeOk (joinP rp (l.key ++ ".json")) = false →
      writeLicense env l rp tp =
        ⟨some (.writeFileFailed (joinP rp (l.key ++ ".json"))), [], []⟩) ∧
    (∀ c d, env.fetchFullInfo l.key = some c → env.jsonToLicense c = some d →
      env.writeOk (joinP rp (l.key ++ ".json")) = true →
      env.writeOk (joinP tp (l.key ++ ".tmpl")) = false →
      writeLicense env l rp tp =
        ⟨some (.writeFileFailed (joinP tp (l.key ++ ".tmpl"))),
          [(joinP rp (l.key ++ ".json"), c)], []⟩) ∧
    (∀ c d, env.fetchFullInfo l.key = some c → env.jsonToLicense c = some d →
      env.writeOk (joinP rp (l.key ++ ".json")) = true →
      env.writeOk (joinP tp (l.key ++ ".tmpl")) = true →
      writeLicense env l rp tp =
        ⟨none, [(joinP rp (l.key ++ ".json"), c)],
          [(joinP tp (l.key ++ ".tmpl"), env.textTemplateString d)]⟩) := by
  refine ⟨?_, ?_, ?_, ?_, ?_⟩
  · intro h
    simp [writeLicense, h]
  · intro c h1 h2
    simp [writeLicense, h1, h2]
  · intro c d h1 h2 h3
    simp [writeLicense, h1, h2, h3]
  · intro c d h1 h2 h3 h4
    simp [writeLicense, h1, h2, h3, h4]
  · intro c d h1 h2 h3 h4
    simp [writeLicense, h1, h2, h3, h4]

/-- Witness for C4: in the healthy environment the materialization of key
`mit` succeeds and writes exactly the raw file and the template file. -/
theorem claim4_witness :
    writeLicense wEnvOk ⟨"mit", "M"⟩ "r" "t" =
      ⟨none, [(joinP "r" ("mit" ++ ".json"), wDetailBytes)],
        [(joinP "t" ("mit" ++ ".tmpl"), wEnvOk.textTemplateString wDetail)]⟩ :=
  (claim4 wEnvOk ⟨"mit", "M"⟩ "r" "t").2.2.2.2 wDetailBytes wDetail rfl rfl rfl rfl

/-- C5: running Bootstrap twice in a row against the same deterministic
environment yields a real cache identical to the one produced by running it
once (the run never reads the previous cache; it either keeps it, clears
it, or replaces it with data derived from the remote source alone). -/
theorem claim5 (env : Env) (π : List Nat) (fs : FS) :
    (Bootstrap env π (Bootstrap env π fs).2).2.realCache =
      (Bootstrap env π fs).2.realCache := by
  cases h : (bootstrapRun env π).eff <;> simp [Bootstrap, CacheEff.apply, h]

/-- C3 counterexample: with a provider that fails on `fetchIndex`,
Bootstrap does fail with `FetchFailed`, but the staging area has already
been created at that point: the run's trace shows the temp dir creation
(and the directory layout creation) strictly before the index fetch,
contradicting "no staging area has been created yet". -/
theorem claim3_counterexample :
    (bootstrapRun wEnvNoIndex []).ret = some .fetchFailed ∧
    (bootstrapRun wEnvNoIndex []).trace =
      [.createTempDir, .mkDirEv (rawPath wEnvNoIndex),
        .mkDirEv (templatesPath wEnvNoIndex), .fetchIndexEv] := by
  constructor
  · rfl
  · rfl

/-- C3 (amended): if fetching the index fails, Bootstrap fails with
`FetchFailed`; the staging area has already been created before the index
fetch, but the deferred cleanup deletes it, so no staging area is left
behind on disk after the run, and the real cache is untouched. -/
theorem claim3 (env : Env) (π : List Nat) (fs : FS)
    (hargs : env.argsOutcome = .ok) (hhome : env.homeOk = true)
    (htmp : env.tempDirOk = true) (hmk1 : env.mkdirOk (rawPath env) = true)
    (hmk2 : env.mkdirOk (templatesPath env) = true)
    (hidx : env.fetchIndexRes = none) :
    (Bootstrap env π fs).1 = some .fetchFailed ∧
    (Bootstrap env π fs).2.stagingExists = false ∧
    (Bootstrap env π fs).2.realCache = fs.realCache ∧
    Event.createTempDir ∈ (bootstrapRun env π).trace := by
  simp [Bootstrap, bootstrapRun, setLogLevel, hargs, hhome, htmp, hmk1, hmk2,
    hidx, CacheEff.apply]

/-- Witness for C3 (amended) at the concrete failing environment. -/
theorem claim3_witness :
    (Bootstrap wEnvNoIndex [] wFs).1 = some .fetchFailed ∧
    (Bootstrap wEnvNoIndex [] wFs).2.stagingExists = false ∧
    (Bootstrap wEnvNoIndex [] wFs).2.realCache = wFs.realCache ∧
    Event.createTempDir ∈ (bootstrapRun wEnvNoIndex []).trace :=
  claim3 wEnvNoIndex [] wFs rfl rfl rfl rfl rfl rfl

/-- C9: if writing the fetched index bytes to the staging index file
fails, Bootstrap reports that failure as `CreateDirFailed` carrying the
index file path — not as `WriteFileFailed` — and aborts the refresh
(real cache untouched, staging removed). -/
theorem claim9 (env : Env) (π : List Nat) (fs : FS) (b : Bytes)
    (hargs : env.argsOutcome = .ok) (hhome : env.homeOk = true)
    (htmp : env.tempDirOk = true) (hmk1 : env.mkdirOk (rawPath env) = true)
    (hmk2 : env.mkdirOk (templatesPath env) = true)
    (hidx : env.fetchIndexRes = some b)
    (hwr : env.writeOk (indexFilePath env) = false) :
    (Bootstrap env π fs).1 = some (.createDirFailed (indexFilePath env)) ∧
    (∀ p, (Bootstrap env π fs).1 ≠ some (.writeFileFailed p)) ∧
    (Bootstrap env π fs).2.realCache = fs.realCache ∧
    (Bootstrap env π fs).2.stagingExists = false := by
  simp [Bootstrap, bootstrapRun, setLogLevel, hargs, hhome, htmp, hmk1, hmk2,
    hidx, hwr, CacheEff.apply]

/-- Witness for C9: concrete run where only the staged index write fails. -/
theorem claim9_witness :
    (Bootstrap wEnvIdxWriteFail [] wFs).1 =
      some (.createDirFailed (indexFilePath wEnvIdxWriteFail)) ∧
    (∀ p, (Bootstrap wEnvIdxWriteFail [] wFs).1 ≠ some (.writeFileFailed p)) ∧
    (Bootstrap wEnvIdxWriteFail [] wFs).2.realCache = wFs.realCache ∧
    (Bootstrap wEnvIdxWriteFail [] wFs).2.stagingExists = false :=
  claim9 wEnvIdxWriteFail [] wFs wIndexBytes rfl rfl rfl rfl rfl rfl (by decide)

/-- C1: in every run of Bootstrap that reaches the fan-out and in which at
least one per-license materialization fails, Bootstrap returns one of the
encountered failures, the real cache is byte-identical to its state before
the run, and the staging root no longer exists on disk afterwards. -/
theorem claim1 (env : Env) (b : Bytes) (licenses : List License)
    (π : List Nat) (fs : FS) (h : ReachesFanOut env b licenses)
    (hπ : π.Perm (List.range licenses.length))
    (hfail : ∃ r ∈ fanOutResults env licenses (rawPath env) (templatesPath env),
      r.result ≠ none) :
    ∃ e, (Bootstrap env π fs).1 = some e ∧
      some e ∈ (fanOutResults env licenses (rawPath env) (templatesPath env)).map
        WLOut.result ∧
      (Bootstrap env π fs).2.realCache = fs.realCache ∧
      (Bootstrap env π fs).2.stagingExists = false := by
  have hlen : ((fanOutResults env licenses (rawPath env) (templatesPath env)).map
      WLOut.result).length = licenses.length := by
    simp [fanOutResults]
  have hπ2 : π.Perm (List.range ((fanOutResults env licenses (rawPath env)
      (templatesPath env)).map WLOut.result).length) := by
    rw [hlen]
    exact hπ
  have hperm := drainOrder_perm hπ2
  have hex : ∃ x ∈ drainOrder π ((fanOutResults env licenses (rawPath env)
      (templatesPath env)).map WLOut.result), x ≠ none := by
    rcases hfail with ⟨r, hr, hne⟩
    exact ⟨r.result, hperm.mem_iff.mpr (List.mem_map_of_mem WLOut.result hr), hne⟩
  rcases firstError_of_exists_failure hex with ⟨e, he, hmem⟩
  refine ⟨e, ?_, mem_of_mem_drainOrder hmem, ?_, ?_⟩ <;>
    simp [Bootstrap, bootstrapRun, setLogLevel, h.args, h.homeo, h.tempo,
      h.mkRaw, h.mkTmpl, h.idx, h.wrIdx, h.decodeIdx, he, CacheEff.apply]

/-- Witness for C1: the detail fetch for `mit` fails; the run aborts with
a materialization failure, leaves the cache untouched and removes the
staging root. -/
theorem claim1_witness :
    ∃ e, (Bootstrap wEnvFail [0, 1] wFs).1 = some e ∧
      some e ∈ (fanOutResults wEnvFail wLicenses (rawPath wEnvFail)
        (templatesPath wEnvFail)).map WLOut.result ∧
      (Bootstrap wEnvFail [0, 1] wFs).2.realCache = wFs.realCache ∧
      (Bootstrap wEnvFail [0, 1] wFs).2.stagingExists = false :=
  claim1 wEnvFail wIndexBytes wLicenses [0, 1] wFs
    ⟨rfl, rfl, rfl, rfl, rfl, rfl, rfl, rfl⟩ (by decide) (by decide)

/-- C2: in a run over `N` licenses with distinct keys in which every
materialization succeeds, Bootstrap returns success and the real cache is
replaced wholesale by the staged tree, which contains exactly `N` raw
files (one `<key>.json` per license), exactly `N` template files (one
`<key>.tmpl` per license) and the index file. -/
theorem claim2 (env : Env) (b : Bytes) (licenses : List License)
    (π : List Nat) (fs : FS) (h : ReachesFanOut env b licenses)
    (hall : ∀ r ∈ fanOutResults env licenses (rawPath env) (templatesPath env),
      r.result = none)
    (hnodup : (licenses.map License.key).Nodup)
    (hrm : env.removeRealErr ≠ some .perm) (hcp : env.copyTreeOk = true) :
    (Bootstrap env π fs).1 = none ∧
    (Bootstrap env π fs).2.realCache = some (stagedTreeOf env licenses b) ∧
    (stagedTreeOf env licenses b).rawFiles.map Prod.fst =
      licenses.map (fun l => joinP (rawPath env) (l.key ++ ".json")) ∧
    (stagedTreeOf env licenses b).templateFiles.map Prod.fst =
      licenses.map (fun l => joinP (templatesPath env) (l.key ++ ".tmpl")) ∧
    (stagedTreeOf env licenses b).rawFiles.length = licenses.length ∧
    (stagedTreeOf env licenses b).templateFiles.length = licenses.length ∧
    ((stagedTreeOf env licenses b).rawFiles.map Prod.fst).Nodup ∧
    ((stagedTreeOf env licenses b).templateFiles.map Prod.fst).Nodup ∧
    (stagedTreeOf env licenses b).indexFile = some b := by
  have hall2 : ∀ l ∈ licenses,
      (writeLicense env l (rawPath env) (templatesPath env)).result = none :=
    fun l hl => hall _ (List.mem_map_of_mem _ hl)
  have hfe := firstError_drain_none env licenses (rawPath env) (templatesPath env) π hall
  have hraw := fanOut_rawFiles_fst env licenses (rawPath env) (templatesPath env) hall2
  have htmpl := fanOut_tmplFiles_fst env licenses (rawPath env) (templatesPath env) hall2
  have hrawn : ((stagedTreeOf env licenses b).rawFiles.map Prod.fst).Nodup := by
    show (((fanOutResults env licenses (rawPath env) (templatesPath env)).flatMap
      WLOut.rawWrites).map Prod.fst).Nodup
    rw [hraw, show licenses.map (fun l => joinP (rawPath env) (l.key ++ ".json")) =
      (licenses.map License.key).map (fun k => joinP (rawPath env) (k ++ ".json")) by
        rw [List.map_map]; rfl]
    exact hnodup.map (key_to_path_injective (rawPath env) ".json")
  have htmpln : ((stagedTreeOf env licenses b).templateFiles.map Prod.fst).Nodup := by
    show (((fanOutResults env licenses (rawPath env) (templatesPath env)).flatMap
      WLOut.tmplWrites).map Prod.fst).Nodup
    rw [htmpl, show licenses.map (fun l => joinP (templatesPath env) (l.key ++ ".tmpl")) =
      (licenses.map License.key).map (fun k => joinP (templatesPath env) (k ++ ".tmpl")) by
        rw [List.map_map]; rfl]
    exact hnodup.map (key_to_path_injective (templatesPath env) ".tmpl")
  refine ⟨?_, ?_, hraw, htmpl, ?_, ?_, hrawn, htmpln, rfl⟩
  · simp [Bootstrap, bootstrapRun, setLogLevel, h.args, h.homeo, h.tempo,
      h.mkRaw, h.mkTmpl, h.idx, h.wrIdx, h.decodeIdx, hfe, hrm, hcp]
  · simp [Bootstrap, bootstrapRun, setLogLevel, h.args, h.homeo, h.tempo,
      h.mkRaw, h.mkTmpl, h.idx, h.wrIdx, h.decodeIdx, hfe, hrm, hcp,
      CacheEff.apply]
  · have h2 := congrArg List.length hraw
    rw [List.length_map, List.length_map] at h2
    exact h2
  · have h2 := congrArg List.length htmpl
    rw [List.length_map, List.length_map] at h2
    exact h2

/-- Witness for C2: the healthy two-license run commits a cache with two
raw files, two template files and the index file. -/
theorem claim2_witness :
    (Bootstrap wEnvOk [0, 1] wFs).1 = none ∧
    (Bootstrap wEnvOk [0, 1] wFs).2.realCache =
      some (stagedTreeOf wEnvOk wLicenses wIndexBytes) ∧
    (stagedTreeOf wEnvOk wLicenses wIndexBytes).rawFiles.map Prod.fst =
      wLicenses.map (fun l => joinP (rawPath wEnvOk) (l.key ++ ".json")) ∧
    (stagedTreeOf wEnvOk wLicenses wIndexBytes).templateFiles.map Prod.fst =
      wLicenses.map (fun l => joinP (templatesPath wEnvOk) (l.key ++ ".tmpl")) ∧
    (stagedTreeOf wEnvOk wLicenses wIndexBytes).rawFiles.length = wLicenses.length ∧
    (stagedTreeOf wEnvOk wLicenses wIndexBytes).templateFiles.length = wLicenses.length ∧
    ((stagedTreeOf wEnvOk wLicenses wIndexBytes).rawFiles.map Prod.fst).Nodup ∧
    ((stagedTreeOf wEnvOk wLicenses wIndexBytes).templateFiles.map Prod.fst).Nodup ∧
    (stagedTreeOf wEnvOk wLicenses wIndexBytes).indexFile = some wIndexBytes :=
  claim2 wEnvOk wIndexBytes wLicenses [0, 1] wFs
    ⟨rfl, rfl, rfl, rfl, rfl, rfl, rfl, rfl⟩ (by decide) (by decide) (by decide) rfl

/-- C8: during the commit step (reached only when every outcome is
success), Bootstrap fails with `RemovePathFailed` when clearing the real
cache hits a permission error; otherwise (including when the directory did
not exist) it moves the staged data into the real cache location, failing
with `CopyTreeFailed` if the transfer fails, and afterwards the staging
root is deleted. -/
theorem claim8 (env : Env) (b : Bytes) (licenses : List License)
    (π : List Nat) (fs : FS) (h : ReachesFanOut env b licenses)
    (hall : ∀ r ∈ fanOutResults env licenses (rawPath env) (templatesPath env),
      r.result = none) :
    (env.removeRealErr = some .perm →
      (Bootstrap env π fs).1 = some (.removePathFailed (realLicensePath env)) ∧
      (Bootstrap env π fs).2.realCache = fs.realCache ∧
      (Bootstrap env π fs).2.stagingExists = false) ∧
    (env.removeRealErr ≠ some .perm → env.copyTreeOk = false →
      (Bootstrap env π fs).1 =
        some (.copyTreeFailed env.tempRoot (realLicensePath env)) ∧
      (Bootstrap env π fs).2.stagingExists = false) ∧
    (env.removeRealErr ≠ some .perm → env.copyTreeOk = true →
      (Bootstrap env π fs).1 = none ∧
      (Bootstrap env π fs).2.realCache = some (stagedTreeOf env licenses b) ∧
      (Bootstrap env π fs).2.stagingExists = false) := by
  have hfe := firstError_drain_none env licenses (rawPath env) (templatesPath env) π hall
  refine ⟨fun hrm => ?_, fun hrm hcp => ?_, fun hrm hcp => ?_⟩
  · simp [Bootstrap, bootstrapRun, setLogLevel, h.args, h.homeo, h.tempo,
      h.mkRaw, h.mkTmpl, h.idx, h.wrIdx, h.decodeIdx, hfe, hrm, CacheEff.apply]
  · simp [Bootstrap, bootstrapRun, setLogLevel, h.args, h.homeo, h.tempo,
      h.mkRaw, h.mkTmpl, h.idx, h.wrIdx, h.decodeIdx, hfe, hrm, hcp,
      CacheEff.apply]
  · simp [Bootstrap, bootstrapRun, setLogLevel, h.args, h.homeo, h.tempo,
      h.mkRaw, h.mkTmpl, h.idx, h.wrIdx, h.decodeIdx, hfe, hrm, hcp,
      CacheEff.apply]

/-- Witness for C8: the healthy run commits and the staging root is gone. -/
theorem claim8_witness :
    (Bootstrap wEnvOk [0, 1] wFs).1 = none ∧
    (Bootstrap wEnvOk [0, 1] wFs).2.realCache =
      some (stagedTreeOf wEnvOk wLicenses wIndexBytes) ∧
    (Bootstrap wEnvOk [0, 1] wFs).2.stagingExists = false :=
  (claim8 wEnvOk wIndexBytes wLicenses [0, 1] wFs
    ⟨rfl, rfl, rfl, rfl, rfl, rfl, rfl, rfl⟩ (by decide)).2.2 (by decide) rfl

/-- C10: when clearing the old real cache during commit, a removal error
that is not a permission error is silently ignored and the commit proceeds
to the copy; Bootstrap fails with `RemovePathFailed` only when the removal
error is a permission error. -/
theorem claim10 (env : Env) (b : Bytes) (licenses : List License)
    (π : List Nat) (fs : FS) (h : ReachesFanOut env b licenses)
    (hall : ∀ r ∈ fanOutResults env licenses (rawPath env) (templatesPath env),
      r.result = none) :
    (env.removeRealErr = some .other →
      ((Bootstrap env π fs).1 ≠ some (.removePathFailed (realLicensePath env))) ∧
      (env.copyTreeOk = true →
        (Bootstrap env π fs).1 = none ∧
        (Bootstrap env π fs).2.realCache = some (stagedTreeOf env licenses b)) ∧
      (env.copyTreeOk = false →
        (Bootstrap env π fs).1 =
          some (.copyTreeFailed env.tempRoot (realLicensePath env)))) ∧
    (env.removeRealErr = some .perm →
      (Bootstrap env π fs).1 = some (.removePathFailed (realLicensePath env))) := by
  have hfe := firstError_drain_none env licenses (rawPath env) (templatesPath env) π hall
  constructor
  · intro hrm
    refine ⟨?_, fun hcp => ?_, fun hcp => ?_⟩
    · cases hcp : env.copyTreeOk <;>
        simp [Bootstrap, bootstrapRun, setLogLevel, h.args, h.homeo, h.tempo,
          h.mkRaw, h.mkTmpl, h.idx, h.wrIdx, h.decodeIdx, hfe, hrm, hcp]
    · simp [Bootstrap, bootstrapRun, setLogLevel, h.args, h.homeo, h.tempo,
        h.mkRaw, h.mkTmpl, h.idx, h.wrIdx, h.decodeIdx, hfe, hrm, hcp,
        CacheEff.apply]
    · simp [Bootstrap, bootstrapRun, setLogLevel, h.args, h.homeo, h.tempo,
        h.mkRaw, h.mkTmpl, h.idx, h.wrIdx, h.decodeIdx, hfe, hrm, hcp]
  · intro hrm
    simp [Bootstrap, bootstrapRun, setLogLevel, h.args, h.homeo, h.tempo,
      h.mkRaw, h.mkTmpl, h.idx, h.wrIdx, h.decodeIdx, hfe, hrm]

/-- Witness for C10: a non-permission removal error is ignored and the
commit still succeeds. -/
theorem claim10_witness :
    (Bootstrap wEnvRmOther [0, 1] wFs).1 = none ∧
    (Bootstrap wEnvRmOther [0, 1] wFs).2.realCache =
      some (stagedTreeOf wEnvRmOther wLicenses wIndexBytes) :=
  ((claim10 wEnvRmOther wIndexBytes wLicenses [0, 1] wFs
    ⟨rfl, rfl, rfl, rfl, rfl, rfl, rfl, rfl⟩ (by decide)).1 rfl).2.1 rfl

/-- C6: Bootstrap launches exactly one materialization task per decoded
license; the outcome queue's capacity equals the number of licenses, so
posting all outcomes succeeds with no producer blocking; the drained
outcome sequence — whatever the completion order — is a permutation of the
per-license results: exactly one outcome per license, none missing, none
duplicated. -/
theorem claim6 (env : Env) (licenses : List License) (rp tp : String)
    (π : List Nat) (hπ : π.Perm (List.range licenses.length)) :
    (fanOutResults env licenses rp tp).length = licenses.length ∧
    sendAll ⟨licenses.length, []⟩
      (drainOrder π ((fanOutResults env licenses rp tp).map WLOut.result)) =
      some ⟨licenses.length,
        drainOrder π ((fanOutResults env licenses rp tp).map WLOut.result)⟩ ∧
    (drainOrder π ((fanOutResults env licenses rp tp).map WLOut.result)).Perm
      ((fanOutResults env licenses rp tp).map WLOut.result) ∧
    (drainOrder π ((fanOutResults env licenses rp tp).map WLOut.result)).length =
      licenses.length := by
  have hlen : ((fanOutResults env licenses rp tp).map WLOut.result).length =
      licenses.length := by
    simp [fanOutResults]
  have hπ2 : π.Perm (List.range ((fanOutResults env licenses rp tp).map
      WLOut.result).length) := by
    rw [hlen]
    exact hπ
  have hperm := drainOrder_perm hπ2
  have hdlen : (drainOrder π ((fanOutResults env licenses rp tp).map
      WLOut.result)).length = licenses.length := by
    rw [hperm.length_eq, hlen]
  refine ⟨by simp [fanOutResults], ?_, hperm, hdlen⟩
  have hsend := sendAll_ok licenses.length
    (drainOrder π ((fanOutResults env licenses rp tp).map WLOut.result)) []
    (by simp [hdlen])
  simpa using hsend

/-- Witness for C6: two licenses, reversed completion order; both sends
fit the capacity-2 queue and the drain is a permutation of the results. -/
theorem claim6_witness :
    (fanOutResults wEnvOk wLicenses "r" "t").length = wLicenses.length ∧
    sendAll ⟨wLicenses.length, []⟩
      (drainOrder [1, 0] ((fanOutResults wEnvOk wLicenses "r" "t").map WLOut.result)) =
      some ⟨wLicenses.length,
        drainOrder [1, 0] ((fanOutResults wEnvOk wLicenses "r" "t").map WLOut.result)⟩ ∧
    (drainOrder [1, 0] ((fanOutResults wEnvOk wLicenses "r" "t").map WLOut.result)).Perm
      ((fanOutResults wEnvOk wLicenses "r" "t").map WLOut.result) ∧
    (drainOrder [1, 0] ((fanOutResults wEnvOk wLicenses "r" "t").map WLOut.result)).length =
      wLicenses.length :=
  claim6 wEnvOk wLicenses "r" "t" [1, 0] (by decide)

/-- C7: `printList` (used by both `ListLocal` and `ListRemote`) prints the
summaries sorted by key in ascending byte-wise order regardless of the
input order, and the sort mutates the caller's sequence in place: after
listing the caller holds the sorted sequence, which in general differs
from the input order. -/
theorem claim7 :
    (∀ ls : List License,
      ((printList ls).2).Perm ls ∧
      List.Sorted keyLE (printList ls).2 ∧
      (printList ls).1 =
        "Available licenses:\n" :: ((printList ls).2.map licLine) ++ [""]) ∧
    (∀ ls1 ls2 : List License, ls1.Perm ls2 → (ls1.map License.key).Nodup →
      printList ls1 = printList ls2) ∧
    (∀ env ls, getLocalList env = some ls →
      ListLocal env = (none, (printList ls).1, (printList ls).2)) ∧
    (∀ env ls, getRemoteList env = some ls →
      ListRemote env = (none, (printList ls).1, (printList ls).2)) ∧
    (∃ ls : List License, (printList ls).2 ≠ ls) := by
  refine ⟨fun ls => ⟨List.perm_insertionSort keyLE ls,
    List.sorted_insertionSort keyLE ls, rfl⟩, ?_, ?_, ?_, ?_⟩
  · intro ls1 ls2 hp hn
    have hs1 := List.sorted_insertionSort keyLE ls1
    have hs2 := List.sorted_insertionSort keyLE ls2
    have hperm : (List.insertionSort keyLE ls1).Perm (List.insertionSort keyLE ls2) :=
      (List.perm_insertionSort keyLE ls1).trans
        (hp.trans (List.perm_insertionSort keyLE ls2).symm)
    have hn1 : ((List.insertionSort keyLE ls1).map License.key).Nodup :=
      (((List.perm_insertionSort keyLE ls1).symm).map License.key).nodup hn
    have heq : List.insertionSort keyLE ls1 = List.insertionSort keyLE ls2 :=
      sorted_perm_nodup_eq hperm hs1 hs2 hn1
    simp [printList, heq]
  · intro env ls h
    simp [ListLocal, h]
  · intro env ls h
    simp [ListRemote, h]
  · exact ⟨[⟨"b", "B"⟩, ⟨"a", "A"⟩], by decide⟩

/-- Witness for C7: the spec's example keys sort to
`apache-2.0, gpl-3.0, mit` regardless of input order. -/
theorem claim7_witness :
    (printList [⟨"mit", "M"⟩, ⟨"apache-2.0", "A"⟩, ⟨"gpl-3.0", "G"⟩]).2.map
      License.key = ["apache-2.0", "gpl-3.0", "mit"] ∧
    ([⟨"gpl-3.0", "G"⟩, ⟨"mit", "M"⟩, ⟨"apache-2.0", "A"⟩] : List License).Perm
      [⟨"mit", "M"⟩, ⟨"apache-2.0", "A"⟩, ⟨"gpl-3.0", "G"⟩] ∧
    printList [⟨"gpl-3.0", "G"⟩, ⟨"mit", "M"⟩, ⟨"apache-2.0", "A"⟩] =
      printList [⟨"mit", "M"⟩, ⟨"apache-2.0", "A"⟩, ⟨"gpl-3.0", "G"⟩] :=
  ⟨by decide, by decide,
    claim7.2.1 _ _ (by decide) (by decide)⟩

end LicenseRepo
